import Mathlib

/-!
Verification of the feature-lifecycle orchestration core of the Claude Voyager
browser extension: the content script `src/pages/content/index.ts` together with
the observer registry and URL helpers of `src/core/services/DOMService.ts`.

The TypeScript code is shallowly embedded.  The module-level mutable singletons
(`features` registry, `activeFeatures` set, `lastPath` cursor) become an explicit
state record, and each lifecycle entry point becomes a pure function from state
to state paired with the list of observable events it produces (calls to a
feature's `init` / `destroy` / `onNavigate` / `onMessagesChanged`, and logged
errors).  A feature module is abstracted by the observable behaviour of its
entry points: which optional hooks are present, and whether calling a hook
throws.  A TypeScript `try { ... } catch` is translated by a branch on the
throwing flag; an exception that the source does NOT catch is surfaced as a
`Bool` "an exception escaped" component of the result.
-/

namespace Voyager

/-- Behavioural abstraction of a `FeatureModule` (content/index.ts lines 31-42):
the unique `key`, presence of the optional hooks `onNavigate` /
`onMessagesChanged`, and whether each entry point throws when called. -/
structure FeatureModule where
  key : String
  initThrows : Bool
  destroyThrows : Bool
  hasOnNavigate : Bool
  navigateThrows : Bool
  hasOnMessagesChanged : Bool
  messagesThrows : Bool
deriving DecidableEq

/-- Observable events produced by the orchestration core: calls into feature
modules and errors logged by the core's catch blocks. -/
inductive Event where
  | initCalled (key : String)
  | destroyCalled (key : String)
  | errorLogged (key : String)
  | navigateCalled (key : String) (convId : Option (List Char))
  | messagesChanged (key : String)
deriving DecidableEq

/-- The content script's module-level state: the `features` registry (a `Map`
from key to module, embedded as a list with unique keys), the `activeFeatures`
set (embedded as a list in insertion order, the iteration order of a JS `Set`),
and the `lastPath` navigation cursor. -/
structure ContentState where
  features : List FeatureModule
  activeFeatures : List String
  lastPath : List Char
deriving DecidableEq

/-- `features.get(key)` — lookup in the module registry. -/
def lookupFeature (feats : List FeatureModule) (key : String) : Option FeatureModule :=
  feats.find? (fun m => m.key == key)

/-- `activateFeature(key, settings)` (content/index.ts lines 82-96):
if the key is already active, return; if the module is not registered, log at
debug level and return; otherwise call `init` inside try/catch — on success add
the key to the active set, on a thrown `init` log the error and leave the
active set unchanged. -/
def activateFeature (key : String) (s : ContentState) : ContentState × List Event :=
  if s.activeFeatures.contains key then (s, [])
  else
    match lookupFeature s.features key with
    | none => (s, [])
    | some m =>
      if m.initThrows then
        (s, [Event.initCalled key, Event.errorLogged key])
      else
        ({ s with activeFeatures := s.activeFeatures ++ [key] }, [Event.initCalled key])

/-- `deactivateFeature(key)` (content/index.ts lines 99-111): if the key is not
active, return; otherwise, when the module is registered call `destroy` inside
try/catch (logging a thrown error); in every case delete the key from the
active set afterwards. -/
def deactivateFeature (key : String) (s : ContentState) : ContentState × List Event :=
  if s.activeFeatures.contains key then
    let evts :=
      match lookupFeature s.features key with
      | none => []
      | some m =>
        if m.destroyThrows then [Event.destroyCalled key, Event.errorLogged key]
        else [Event.destroyCalled key]
    ({ s with activeFeatures := s.activeFeatures.filter (fun k => !(k == key)) }, evts)
  else (s, [])

/-- The persisted settings consumed by `syncFeatures`: the `features` record of
per-key enabled flags, embedded as an association list whose key order is the
iteration order of `Object.keys(settings.features)`. -/
structure VoyagerSettings where
  features : List (String × Bool)
deriving DecidableEq

/-- `Object.keys(settings.features)` — the iteration order of the sync loop. -/
def featureKeysOf (st : VoyagerSettings) : List String :=
  st.features.map Prod.fst

/-- `settings.features[key]` — the enabled flag for a key. -/
def enabledFlag (st : VoyagerSettings) (key : String) : Bool :=
  ((st.features.find? (fun p => p.1 == key)).map Prod.snd).getD false

/-- One iteration of the `syncFeatures` loop body (content/index.ts lines
118-124): activate when the flag is true, deactivate when it is false. -/
def syncStep (st : VoyagerSettings) (key : String) (s : ContentState) :
    ContentState × List Event :=
  if enabledFlag st key then activateFeature key s else deactivateFeature key s

/-- The `for (const key of featureKeys)` loop of `syncFeatures`, written as
structural recursion over the key list; events are concatenated in order. -/
def syncList (st : VoyagerSettings) (keys : List String) (s : ContentState) :
    ContentState × List Event :=
  match keys with
  | [] => (s, [])
  | k :: rest =>
    let r := syncStep st k s
    let r2 := syncList st rest r.1
    (r2.1, r.2 ++ r2.2)

/-- `syncFeatures()` (content/index.ts lines 114-128): reconcile the active set
against the settings snapshot by running the loop body over
`Object.keys(settings.features)`.  (The trailing `setSidebarPinningEnabled`
call mutates only sidebar DOM state, outside this model.) -/
def syncFeatures (st : VoyagerSettings) (s : ContentState) : ContentState × List Event :=
  syncList st (featureKeysOf st) s

/-- Recognizer for `initCalled key` events. -/
def Event.isInit (key : String) : Event → Bool
  | .initCalled k => k == key
  | _ => false

/-- Recognizer for `destroyCalled key` events. -/
def Event.isDestroy (key : String) : Event → Bool
  | .destroyCalled k => k == key
  | _ => false

/-- Recognizer for `navigateCalled key _` events (any conversation id). -/
def Event.isNavigate (key : String) : Event → Bool
  | .navigateCalled k _ => k == key
  | _ => false

/-- Recognizer for `navigateCalled key convId` events with a specific id. -/
def Event.isNavigateWith (key : String) (convId : Option (List Char)) : Event → Bool
  | .navigateCalled k c => k == key && c == convId
  | _ => false

/-- Recognizer for `messagesChanged key` events. -/
def Event.isMessages (key : String) : Event → Bool
  | .messagesChanged k => k == key
  | _ => false

/-- Number of `init` calls made to `key` in an event trace. -/
def countInit (key : String) (evts : List Event) : Nat :=
  (evts.filter (Event.isInit key)).length

/-- Number of `destroy` calls made to `key` in an event trace. -/
def countDestroy (key : String) (evts : List Event) : Nat :=
  (evts.filter (Event.isDestroy key)).length

/-- Number of `onNavigate` calls made to `key` in an event trace. -/
def countNavigate (key : String) (evts : List Event) : Nat :=
  (evts.filter (Event.isNavigate key)).length

/-- Number of `onNavigate` calls made to `key` with a given id. -/
def countNavigateWith (key : String) (convId : Option (List Char))
    (evts : List Event) : Nat :=
  (evts.filter (Event.isNavigateWith key convId)).length

/-- Number of `onMessagesChanged` calls made to `key` in an event trace. -/
def countMessages (key : String) (evts : List Event) : Nat :=
  (evts.filter (Event.isMessages key)).length

/-- Character class `[a-f0-9-]` under the regex `i` flag: lowercase or
uppercase hex letters, digits, and the dash. -/
def hexDashChar (c : Char) : Bool :=
  (('a' ≤ c && c ≤ 'f') || ('A' ≤ c && c ≤ 'F') || ('0' ≤ c && c ≤ '9') || c == '-')

/-- Case-insensitive test that the character list starts with the literal
`/chat/` (the regex `i` flag lowers only the letters). -/
def startsWithChat (cs : List Char) : Bool :=
  match cs with
  | a :: b :: c :: d :: e :: f :: _ =>
    a == '/' && b.toLower == 'c' && c.toLower == 'h' &&
      d.toLower == 'a' && e.toLower == 't' && f == '/'
  | _ => false

/-- Greedy `[a-f0-9-]+` capture: the maximal leading run of hex-dash
characters. -/
def takeHexDash : List Char → List Char
  | [] => []
  | c :: rest => if hexDashChar c then c :: takeHexDash rest else []

/-- `DOM.getConversationId()` (DOMService.ts lines 377-380): leftmost match of
the regex `/\chat\/([a-f0-9-]+)/i` against the pathname, returning capture
group 1, or `none` when the regex does not match anywhere.  The scan tries
each start position left to right, exactly like the regex engine. -/
def execChatId : List Char → Option (List Char)
  | [] => none
  | cs@(_ :: rest) =>
    if startsWithChat cs then
      let seg := takeHexDash (cs.drop 6)
      if seg.isEmpty then execChatId rest else some seg
    else execChatId rest

/-- `DOM.isChatPage()` (DOMService.ts lines 383-385): the anchored regex
`^\/chat\/[a-f0-9-]+$/i` — the whole pathname is `/chat/` followed by a
nonempty run of hex-dash characters. -/
def isChatPage (cs : List Char) : Bool :=
  startsWithChat cs && !(cs.drop 6).isEmpty && (cs.drop 6).all hexDashChar

/-- The `for (const key of activeFeatures)` notification loop of
`checkNavigation` (content/index.ts lines 145-148).  Each iteration looks the
key up in the registry and, when the module exists and implements
`onNavigate`, calls it.  The source wraps NO call in try/catch, so a thrown
`onNavigate` aborts the loop; the `Bool` records that an exception escaped. -/
def notifyNavigate (feats : List FeatureModule) (convId : Option (List Char)) :
    List String → List Event × Bool
  | [] => ([], false)
  | k :: rest =>
    match lookupFeature feats k with
    | none => notifyNavigate feats convId rest
    | some m =>
      if m.hasOnNavigate then
        if m.navigateThrows then ([Event.navigateCalled k convId], true)
        else
          let r := notifyNavigate feats convId rest
          (Event.navigateCalled k convId :: r.1, r.2)
      else notifyNavigate feats convId rest

/-- `checkNavigation()` (content/index.ts lines 136-162), with the current
value of `window.location.pathname` passed explicitly.  If the path equals the
`lastPath` cursor, return immediately; otherwise update the cursor, compute
the conversation id from the (new) pathname via `DOM.getConversationId()`, and
notify all active features.  The third component records whether an exception
escaped from the unwrapped notification loop.  (The trailing sidebar
re-pinning and the delayed `setupMessageObserver` call act on DOM state and
timers outside this model.) -/
def checkNavigation (currentPath : List Char) (s : ContentState) :
    ContentState × List Event × Bool :=
  if currentPath == s.lastPath then (s, [], false)
  else
    let s2 := { s with lastPath := currentPath }
    let r := notifyNavigate s.features (execChatId currentPath) s.activeFeatures
    (s2, r.1, r.2)

/-- The debounced `onMutation` callback body of `setupMessageObserver`
(content/index.ts lines 189-194): for each key of the active set, look the
module up and call `onMessagesChanged` when present.  As in the navigation
loop, no call is wrapped, so a throw aborts the loop. -/
def notifyMessagesChanged (feats : List FeatureModule) :
    List String → List Event × Bool
  | [] => ([], false)
  | k :: rest =>
    match lookupFeature feats k with
    | none => notifyMessagesChanged feats rest
    | some m =>
      if m.hasOnMessagesChanged then
        if m.messagesThrows then ([Event.messagesChanged k], true)
        else
          let r := notifyMessagesChanged feats rest
          (Event.messagesChanged k :: r.1, r.2)
      else notifyMessagesChanged feats rest

/-- `MESSAGE_OBSERVER_MAX_RETRIES` (content/index.ts line 66). -/
def MESSAGE_OBSERVER_MAX_RETRIES : Nat := 6

/-- The delay computed at content/index.ts line 175:
`Math.min(1000 * 2 ** retryCount, 10_000)`. -/
def backoffDelay (retryCount : Nat) : Nat :=
  min (1000 * 2 ^ retryCount) 10000

/-- Outcome of one `setupMessageObserver(retryCount)` invocation. -/
inductive ObserverOutcome where
  | installed
  | gaveUp
  | scheduledRetry (delay : Nat) (nextRetryCount : Nat)
deriving DecidableEq

/-- One invocation of `setupMessageObserver(retryCount)` (content/index.ts
lines 167-202), with the result of `DOM.query('mainContent')` abstracted to a
`Bool`: when the container is missing, give up once `retryCount` has reached
`MESSAGE_OBSERVER_MAX_RETRIES`, otherwise schedule a retry with the backoff
delay; when the container is found, install the mutation observer. -/
def setupMessageObserverStep (containerFound : Bool) (retryCount : Nat) :
    ObserverOutcome :=
  if !containerFound then
    if MESSAGE_OBSERVER_MAX_RETRIES ≤ retryCount then ObserverOutcome.gaveUp
    else ObserverOutcome.scheduledRetry (backoffDelay retryCount) (retryCount + 1)
  else ObserverOutcome.installed

/-- The chain of scheduled retry delays when the container is never found,
starting from a given `retryCount`: each invocation schedules the next until
the retry count reaches the maximum, at which point the chain stops. -/
def observerRun (retryCount : Nat) : List Nat :=
  if MESSAGE_OBSERVER_MAX_RETRIES ≤ retryCount then []
  else backoffDelay retryCount :: observerRun (retryCount + 1)
termination_by MESSAGE_OBSERVER_MAX_RETRIES - retryCount
decreasing_by simp [MESSAGE_OBSERVER_MAX_RETRIES] at *; omega

/-- An entry of the DOMService observer registry (DOMService.ts lines
104-111): the live `MutationObserver` and its target node, both abstracted to
opaque numeric identities. -/
structure ObserverEntry where
  observer : Nat
  target : Nat
deriving DecidableEq

/-- Observable events of the observer registry: `observer.disconnect()` calls
and `observer.observe(target, options)` calls. -/
inductive ObsEvent where
  | disconnected (observer : Nat)
  | observeStarted (observer : Nat) (target : Nat)
deriving DecidableEq

/-- `DOM.unobserve(name)` (DOMService.ts lines 248-255): when an entry is
registered under the name, disconnect its observer and delete the entry. -/
def unobserve (name : String) (observers : List (String × ObserverEntry)) :
    List (String × ObserverEntry) × List ObsEvent :=
  match observers.find? (fun p => p.1 == name) with
  | some e =>
    (observers.filter (fun p => !(p.1 == name)), [ObsEvent.disconnected e.2.observer])
  | none => (observers, [])

/-- `DOM.observe(name, target, callback, options)` (DOMService.ts lines
232-245): first clean up any existing observer with this name via
`unobserve`, then create a fresh `MutationObserver` (its identity supplied by
the caller as `newObserver`), start observing the target, and store the entry
under the name. -/
def observe (name : String) (target : Nat) (newObserver : Nat)
    (observers : List (String × ObserverEntry)) :
    List (String × ObserverEntry) × List ObsEvent :=
  let r := unobserve name observers
  (r.1 ++ [(name, ⟨newObserver, target⟩)],
   r.2 ++ [ObsEvent.observeStarted newObserver target])

/-! Helper lemmas about the embedding. -/

theorem countInit_append (key : String) (l1 l2 : List Event) :
    countInit key (l1 ++ l2) = countInit key l1 + countInit key l2 := by
  simp [countInit, List.filter_append]

theorem countDestroy_append (key : String) (l1 l2 : List Event) :
    countDestroy key (l1 ++ l2) = countDestroy key l1 + countDestroy key l2 := by
  simp [countDestroy, List.filter_append]

theorem activateFeature_features (key : String) (s : ContentState) :
    (activateFeature key s).1.features = s.features := by
  unfold activateFeature
  split
  · rfl
  · split
    · rfl
    · split <;> rfl

theorem deactivateFeature_features (key : String) (s : ContentState) :
    (deactivateFeature key s).1.features = s.features := by
  unfold deactivateFeature
  split <;> rfl

theorem syncStep_features (st : VoyagerSettings) (key : String) (s : ContentState) :
    (syncStep st key s).1.features = s.features := by
  unfold syncStep
  split
  · exact activateFeature_features key s
  · exact deactivateFeature_features key s

theorem syncList_features (st : VoyagerSettings) (keys : List String) (s : ContentState) :
    (syncList st keys s).1.features = s.features := by
  induction keys generalizing s with
  | nil => rfl
  | cons k rest ih =>
    simp only [syncList]
    rw [ih]
    exact syncStep_features st k s

theorem activateFeature_mem_other (key other : String) (s : ContentState)
    (h : other ≠ key) :
    (key ∈ (activateFeature other s).1.activeFeatures ↔ key ∈ s.activeFeatures) := by
  unfold activateFeature
  split
  · exact Iff.rfl
  · split
    · exact Iff.rfl
    · split
      · exact Iff.rfl
      · simp [List.mem_append, h.symm]

theorem deactivateFeature_mem_other (key other : String) (s : ContentState)
    (h : other ≠ key) :
    (key ∈ (deactivateFeature other s).1.activeFeatures ↔ key ∈ s.activeFeatures) := by
  unfold deactivateFeature
  split
  · simp [List.mem_filter, h.symm]
  · exact Iff.rfl

theorem syncStep_mem_other (st : VoyagerSettings) (key other : String)
    (s : ContentState) (h : other ≠ key) :
    (key ∈ (syncStep st other s).1.activeFeatures ↔ key ∈ s.activeFeatures) := by
  unfold syncStep
  split
  · exact activateFeature_mem_other key other s h
  · exact deactivateFeature_mem_other key other s h

theorem activateFeature_countInit_other (key other : String) (s : ContentState)
    (h : other ≠ key) : countInit key (activateFeature other s).2 = 0 := by
  unfold activateFeature
  split
  · rfl
  · split
    · rfl
    · split <;> simp [countInit, Event.isInit, h]

theorem deactivateFeature_countInit (key other : String) (s : ContentState) :
    countInit key (deactivateFeature other s).2 = 0 := by
  unfold deactivateFeature
  split
  · split
    · rfl
    · split <;> simp [countInit, Event.isInit]
  · rfl

theorem activateFeature_countDestroy (key other : String) (s : ContentState) :
    countDestroy key (activateFeature other s).2 = 0 := by
  unfold activateFeature
  split
  · rfl
  · split
    · rfl
    · split <;> simp [countDestroy, Event.isDestroy]

theorem deactivateFeature_countDestroy_other (key other : String) (s : ContentState)
    (h : other ≠ key) : countDestroy key (deactivateFeature other s).2 = 0 := by
  unfold deactivateFeature
  split
  · split
    · rfl
    · split <;> simp [countDestroy, Event.isDestroy, h]
  · rfl

theorem syncStep_countInit_other (st : VoyagerSettings) (key other : String)
    (s : ContentState) (h : other ≠ key) :
    countInit key (syncStep st other s).2 = 0 := by
  unfold syncStep
  split
  · exact activateFeature_countInit_other key other s h
  · exact deactivateFeature_countInit key other s

theorem syncStep_countDestroy_other (st : VoyagerSettings) (key other : String)
    (s : ContentState) (h : other ≠ key) :
    countDestroy key (syncStep st other s).2 = 0 := by
  unfold syncStep
  split
  · exact activateFeature_countDestroy key other s
  · exact deactivateFeature_countDestroy_other key other s h

theorem syncList_append (st : VoyagerSettings) (l1 l2 : List String) (s : ContentState) :
    syncList st (l1 ++ l2) s =
      ((syncList st l2 (syncList st l1 s).1).1,
        (syncList st l1 s).2 ++ (syncList st l2 (syncList st l1 s).1).2) := by
  induction l1 generalizing s with
  | nil => simp [syncList]
  | cons k rest ih =>
    simp only [List.cons_append, syncList]
    simp only [List.append_eq]
    rw [ih]
    simp [List.append_assoc]

theorem syncList_mem_not_mem (st : VoyagerSettings) (keys : List String)
    (key : String) (s : ContentState) (h : key ∉ keys) :
    (key ∈ (syncList st keys s).1.activeFeatures ↔ key ∈ s.activeFeatures) := by
  induction keys generalizing s with
  | nil => exact Iff.rfl
  | cons k rest ih =>
    simp only [List.mem_cons, not_or] at h
    simp only [syncList]
    exact (ih (syncStep st k s).1 h.2).trans (syncStep_mem_other st key k s (Ne.symm h.1))

theorem syncList_countInit_not_mem (st : VoyagerSettings) (keys : List String)
    (key : String) (s : ContentState) (h : key ∉ keys) :
    countInit key (syncList st keys s).2 = 0 := by
  induction keys generalizing s with
  | nil => rfl
  | cons k rest ih =>
    simp only [List.mem_cons, not_or] at h
    simp only [syncList]
    rw [countInit_append, syncStep_countInit_other st key k s (Ne.symm h.1), ih _ h.2]

theorem syncList_countDestroy_not_mem (st : VoyagerSettings) (keys : List String)
    (key : String) (s : ContentState) (h : key ∉ keys) :
    countDestroy key (syncList st keys s).2 = 0 := by
  induction keys generalizing s with
  | nil => rfl
  | cons k rest ih =>
    simp only [List.mem_cons, not_or] at h
    simp only [syncList]
    rw [countDestroy_append, syncStep_countDestroy_other st key k s (Ne.symm h.1), ih _ h.2]

theorem contains_iff_mem (key : String) (l : List String) :
    l.contains key = true ↔ key ∈ l := by
  simp [List.contains]

theorem countNavigate_cons (key k : String) (c : Option (List Char))
    (evts : List Event) :
    countNavigate key (Event.navigateCalled k c :: evts) =
      (if k = key then 1 else 0) + countNavigate key evts := by
  by_cases h : k = key
  · simp [countNavigate, Event.isNavigate, h]
    omega
  · simp [countNavigate, Event.isNavigate, h]

theorem countNavigateWith_cons (key k : String) (c c2 : Option (List Char))
    (evts : List Event) :
    countNavigateWith key c (Event.navigateCalled k c2 :: evts) =
      (if k = key ∧ c2 = c then 1 else 0) + countNavigateWith key c evts := by
  by_cases h : k = key
  · by_cases h2 : c2 = c
    · simp [countNavigateWith, Event.isNavigateWith, h, h2]
      omega
    · simp [countNavigateWith, Event.isNavigateWith, h, h2]
  · simp [countNavigateWith, Event.isNavigateWith, h]

theorem countMessages_cons (key k : String) (evts : List Event) :
    countMessages key (Event.messagesChanged k :: evts) =
      (if k = key then 1 else 0) + countMessages key evts := by
  by_cases h : k = key
  · simp [countMessages, Event.isMessages, h]
    omega
  · simp [countMessages, Event.isMessages, h]

theorem notifyNavigate_shape (feats : List FeatureModule) (c : Option (List Char))
    (act : List String) :
    ∀ e ∈ (notifyNavigate feats c act).1, ∃ k ∈ act, ∃ m,
      lookupFeature feats k = some m ∧ m.hasOnNavigate = true ∧
      e = Event.navigateCalled k c := by
  induction act with
  | nil => intro e he; cases he
  | cons k rest ih =>
    intro e he
    simp only [notifyNavigate] at he
    cases hf : lookupFeature feats k with
    | none =>
      simp only [hf] at he
      obtain ⟨k2, hk2, m2, hm2⟩ := ih e he
      exact ⟨k2, List.mem_cons_of_mem _ hk2, m2, hm2⟩
    | some m =>
      simp only [hf] at he
      by_cases hh : m.hasOnNavigate
      · by_cases ht : m.navigateThrows
        · simp only [hh, ht, if_true, List.mem_singleton] at he
          exact ⟨k, List.mem_cons_self _ _, m, hf, hh, he⟩
        · simp only [hh, if_true] at he
          rw [if_neg ht] at he
          simp only [List.mem_cons] at he
          rcases he with he | he
          · exact ⟨k, List.mem_cons_self _ _, m, hf, hh, he⟩
          · obtain ⟨k2, hk2, m2, hm2⟩ := ih e he
            exact ⟨k2, List.mem_cons_of_mem _ hk2, m2, hm2⟩
      · rw [if_neg hh] at he
        obtain ⟨k2, hk2, m2, hm2⟩ := ih e he
        exact ⟨k2, List.mem_cons_of_mem _ hk2, m2, hm2⟩

theorem notifyNavigate_countNavigate_not_mem (feats : List FeatureModule)
    (c : Option (List Char)) (act : List String) (key : String) (h : key ∉ act) :
    countNavigate key (notifyNavigate feats c act).1 = 0 := by
  unfold countNavigate
  rw [List.length_eq_zero, List.filter_eq_nil_iff]
  intro e he
  obtain ⟨k, hk, m, _, _, hsh⟩ := notifyNavigate_shape feats c act e he
  subst hsh
  simp only [Event.isNavigate, beq_iff_eq]
  intro heq
  exact h (heq ▸ hk)

theorem notifyNavigate_countNavigateWith_not_mem (feats : List FeatureModule)
    (c c2 : Option (List Char)) (act : List String) (key : String) (h : key ∉ act) :
    countNavigateWith key c2 (notifyNavigate feats c act).1 = 0 := by
  unfold countNavigateWith
  rw [List.length_eq_zero, List.filter_eq_nil_iff]
  intro e he
  obtain ⟨k, hk, m, _, _, hsh⟩ := notifyNavigate_shape feats c act e he
  subst hsh
  simp only [Event.isNavigateWith, Bool.and_eq_true, beq_iff_eq, not_and]
  intro heq
  exact absurd (heq ▸ hk) h

theorem notifyNavigate_noThrow (feats : List FeatureModule) (c : Option (List Char))
    (act : List String)
    (h : ∀ k ∈ act, ∀ m, lookupFeature feats k = some m → m.navigateThrows = false) :
    (notifyNavigate feats c act).2 = false := by
  induction act with
  | nil => rfl
  | cons k rest ih =>
    have h2 : ∀ k2 ∈ rest, ∀ m, lookupFeature feats k2 = some m →
        m.navigateThrows = false :=
      fun k2 hk2 => h k2 (List.mem_cons_of_mem _ hk2)
    simp only [notifyNavigate]
    cases hf : lookupFeature feats k with
    | none =>
      simp only [hf]
      exact ih h2
    | some m =>
      have ht : m.navigateThrows = false := h k (List.mem_cons_self _ _) m hf
      simp only [hf, ht]
      by_cases hh : m.hasOnNavigate
      · simp only [hh, if_true, Bool.false_eq_true, if_false]
        exact ih h2
      · rw [if_neg hh]
        exact ih h2

theorem notifyNavigate_count_mem (feats : List FeatureModule)
    (c : Option (List Char)) (act : List String) (key : String) (m : FeatureModule)
    (hnd : act.Nodup) (hk : key ∈ act) (hm : lookupFeature feats key = some m)
    (hnt : ∀ k ∈ act, ∀ m2, lookupFeature feats k = some m2 →
      m2.navigateThrows = false) :
    countNavigate key (notifyNavigate feats c act).1 =
      (if m.hasOnNavigate then 1 else 0) ∧
    countNavigateWith key c (notifyNavigate feats c act).1 =
      (if m.hasOnNavigate then 1 else 0) := by
  induction act with
  | nil => cases hk
  | cons k rest ih =>
    have hndr : rest.Nodup := (List.nodup_cons.mp hnd).2
    have hnt2 : ∀ k2 ∈ rest, ∀ m2, lookupFeature feats k2 = some m2 →
        m2.navigateThrows = false :=
      fun k2 hk2 => hnt k2 (List.mem_cons_of_mem _ hk2)
    rcases List.mem_cons.mp hk with hkk | hkr
    · subst hkk
      have hrest : key ∉ rest := (List.nodup_cons.mp hnd).1
      have ht : m.navigateThrows = false := hnt key (List.mem_cons_self _ _) m hm
      have hz1 := notifyNavigate_countNavigate_not_mem feats c rest key hrest
      have hz2 := notifyNavigate_countNavigateWith_not_mem feats c c rest key hrest
      simp only [notifyNavigate, hm, ht]
      by_cases hh : m.hasOnNavigate
      · simp only [hh, if_true, Bool.false_eq_true, if_false]
        rw [countNavigate_cons, countNavigateWith_cons, hz1, hz2]
        simp
      · rw [if_neg hh, if_neg (by simpa using hh)]
        exact ⟨hz1, hz2⟩
    · have hkk : k ≠ key := fun he => (List.nodup_cons.mp hnd).1 (he ▸ hkr)
      have hih := ih hndr hkr hnt2
      simp only [notifyNavigate]
      cases hf : lookupFeature feats k with
      | none =>
        simp only [hf]
        exact hih
      | some m2 =>
        have ht2 : m2.navigateThrows = false := hnt k (List.mem_cons_self _ _) m2 hf
        simp only [hf, ht2]
        by_cases hh : m2.hasOnNavigate
        · simp only [hh, if_true, Bool.false_eq_true, if_false]
          rw [countNavigate_cons, countNavigateWith_cons, if_neg hkk,
            if_neg (show ¬(k = key ∧ c = c) from fun hc => hkk hc.1)]
          simpa using hih
        · rw [if_neg hh]
          exact hih

theorem notifyMessagesChanged_shape (feats : List FeatureModule) (act : List String) :
    ∀ e ∈ (notifyMessagesChanged feats act).1, ∃ k ∈ act, ∃ m,
      lookupFeature feats k = some m ∧ m.hasOnMessagesChanged = true ∧
      e = Event.messagesChanged k := by
  induction act with
  | nil => intro e he; cases he
  | cons k rest ih =>
    intro e he
    simp only [notifyMessagesChanged] at he
    cases hf : lookupFeature feats k with
    | none =>
      simp only [hf] at he
      obtain ⟨k2, hk2, m2, hm2⟩ := ih e he
      exact ⟨k2, List.mem_cons_of_mem _ hk2, m2, hm2⟩
    | some m =>
      simp only [hf] at he
      by_cases hh : m.hasOnMessagesChanged
      · by_cases ht : m.messagesThrows
        · simp only [hh, ht, if_true, List.mem_singleton] at he
          exact ⟨k, List.mem_cons_self _ _, m, hf, hh, he⟩
        · simp only [hh, if_true] at he
          rw [if_neg ht] at he
          simp only [List.mem_cons] at he
          rcases he with he | he
          · exact ⟨k, List.mem_cons_self _ _, m, hf, hh, he⟩
          · obtain ⟨k2, hk2, m2, hm2⟩ := ih e he
            exact ⟨k2, List.mem_cons_of_mem _ hk2, m2, hm2⟩
      · rw [if_neg hh] at he
        obtain ⟨k2, hk2, m2, hm2⟩ := ih e he
        exact ⟨k2, List.mem_cons_of_mem _ hk2, m2, hm2⟩

theorem notifyMessagesChanged_count_not_mem (feats : List FeatureModule)
    (act : List String) (key : String) (h : key ∉ act) :
    countMessages key (notifyMessagesChanged feats act).1 = 0 := by
  unfold countMessages
  rw [List.length_eq_zero, List.filter_eq_nil_iff]
  intro e he
  obtain ⟨k, hk, m, _, _, hsh⟩ := notifyMessagesChanged_shape feats act e he
  subst hsh
  simp only [Event.isMessages, beq_iff_eq]
  intro heq
  exact h (heq ▸ hk)


theorem checkNavigation_activeFeatures (p : List Char) (s : ContentState) :
    (checkNavigation p s).1.activeFeatures = s.activeFeatures := by
  unfold checkNavigation
  split <;> rfl

theorem not_contains_of_not_mem (key : String) (l : List String) (h : key ∉ l) :
    l.contains key = false := by
  rw [Bool.eq_false_iff]
  intro hc
  exact h ((contains_iff_mem key l).mp hc)

theorem not_mem_filter_self (key : String) (l : List String) :
    key ∉ l.filter (fun k => !(k == key)) := by
  intro h
  rw [List.mem_filter] at h
  simp at h

theorem activateFeature_active (key : String) (s : ContentState)
    (h : key ∈ s.activeFeatures) : activateFeature key s = (s, []) := by
  simp [activateFeature, h]

theorem activateFeature_inactive_ok (key : String) (s : ContentState)
    (m : FeatureModule) (hm : lookupFeature s.features key = some m)
    (hth : m.initThrows = false) (hna : key ∉ s.activeFeatures) :
    activateFeature key s =
      ({ s with activeFeatures := s.activeFeatures ++ [key] },
        [Event.initCalled key]) := by
  simp [activateFeature, hna, hm, hth]

theorem activateFeature_inactive_throws (key : String) (s : ContentState)
    (m : FeatureModule) (hm : lookupFeature s.features key = some m)
    (hth : m.initThrows = true) (hna : key ∉ s.activeFeatures) :
    activateFeature key s = (s, [Event.initCalled key, Event.errorLogged key]) := by
  simp [activateFeature, hna, hm, hth]

theorem deactivateFeature_inactive (key : String) (s : ContentState)
    (h : key ∉ s.activeFeatures) : deactivateFeature key s = (s, []) := by
  simp [deactivateFeature, h]

theorem deactivateFeature_active_spec (key : String) (s : ContentState)
    (m : FeatureModule) (hm : lookupFeature s.features key = some m)
    (ha : key ∈ s.activeFeatures) :
    (deactivateFeature key s).1.activeFeatures =
      s.activeFeatures.filter (fun k => !(k == key)) ∧
    countDestroy key (deactivateFeature key s).2 = 1 ∧
    countInit key (deactivateFeature key s).2 = 0 := by
  by_cases hd : m.destroyThrows <;>
    simp [deactivateFeature, ha, hm, hd, countDestroy, countInit,
      Event.isDestroy, Event.isInit]

theorem nodup_split (l : List String) (key : String) (hnd : l.Nodup)
    (hk : key ∈ l) :
    ∃ l1 l2, l = l1 ++ key :: l2 ∧ key ∉ l1 ∧ key ∉ l2 := by
  obtain ⟨l1, l2, rfl⟩ := List.append_of_mem hk
  rw [List.nodup_append] at hnd
  refine ⟨l1, l2, rfl, ?_, ?_⟩
  · intro h1
    exact hnd.2.2 h1 (List.mem_cons_self _ _)
  · exact (List.nodup_cons.mp hnd.2.1).1

theorem syncList_cons_eq (st : VoyagerSettings) (k : String) (rest : List String)
    (s : ContentState) :
    syncList st (k :: rest) s =
      ((syncList st rest (syncStep st k s).1).1,
        (syncStep st k s).2 ++ (syncList st rest (syncStep st k s).1).2) := rfl

theorem syncList_enabled_spec (st : VoyagerSettings) (keys : List String)
    (s : ContentState) (key : String) (m : FeatureModule)
    (hnd : keys.Nodup) (hk : key ∈ keys) (hen : enabledFlag st key = true)
    (hm : lookupFeature s.features key = some m) (hth : m.initThrows = false) :
    key ∈ (syncList st keys s).1.activeFeatures ∧
    countInit key (syncList st keys s).2 =
      (if key ∈ s.activeFeatures then 0 else 1) ∧
    countDestroy key (syncList st keys s).2 = 0 := by
  obtain ⟨l1, l2, rfl, h1, h2⟩ := nodup_split keys key hnd hk
  rw [syncList_append]
  set s1 := (syncList st l1 s).1 with hs1
  have hf1 : s1.features = s.features := syncList_features st l1 s
  have hmem1 : key ∈ s1.activeFeatures ↔ key ∈ s.activeFeatures :=
    syncList_mem_not_mem st l1 key s h1
  have hm1 : lookupFeature s1.features key = some m := by rw [hf1]; exact hm
  rw [syncList_cons_eq]
  set s2 := (syncStep st key s1).1 with hs2
  have hstep : syncStep st key s1 = activateFeature key s1 := by
    unfold syncStep
    rw [hen]
    simp
  constructor
  · rw [syncList_mem_not_mem st l2 key _ h2]
    by_cases ha : key ∈ s.activeFeatures
    · rw [hs2, hstep, activateFeature_active key s1 (hmem1.mpr ha)]
      exact hmem1.mpr ha
    · rw [hs2, hstep,
        activateFeature_inactive_ok key s1 m hm1 hth (fun hx => ha (hmem1.mp hx))]
      simp
  · constructor
    · rw [countInit_append, countInit_append,
        syncList_countInit_not_mem st l1 key s h1,
        syncList_countInit_not_mem st l2 key _ h2]
      by_cases ha : key ∈ s.activeFeatures
      · rw [hstep, activateFeature_active key s1 (hmem1.mpr ha)]
        simp [ha, countInit]
      · rw [hstep,
          activateFeature_inactive_ok key s1 m hm1 hth (fun hx => ha (hmem1.mp hx))]
        simp [ha, countInit, Event.isInit]
    · rw [countDestroy_append, countDestroy_append,
        syncList_countDestroy_not_mem st l1 key s h1,
        syncList_countDestroy_not_mem st l2 key _ h2,
        hstep, activateFeature_countDestroy]

theorem syncList_enabled_throws_spec (st : VoyagerSettings) (keys : List String)
    (s : ContentState) (key : String) (m : FeatureModule)
    (hnd : keys.Nodup) (hk : key ∈ keys) (hen : enabledFlag st key = true)
    (hm : lookupFeature s.features key = some m) (hth : m.initThrows = true)
    (hna : key ∉ s.activeFeatures) :
    key ∉ (syncList st keys s).1.activeFeatures ∧
    countInit key (syncList st keys s).2 = 1 ∧
    Event.errorLogged key ∈ (syncList st keys s).2 := by
  obtain ⟨l1, l2, rfl, h1, h2⟩ := nodup_split keys key hnd hk
  rw [syncList_append]
  set s1 := (syncList st l1 s).1 with hs1
  have hf1 : s1.features = s.features := syncList_features st l1 s
  have hmem1 : key ∈ s1.activeFeatures ↔ key ∈ s.activeFeatures :=
    syncList_mem_not_mem st l1 key s h1
  have hm1 : lookupFeature s1.features key = some m := by rw [hf1]; exact hm
  have hna1 : key ∉ s1.activeFeatures := fun hx => hna (hmem1.mp hx)
  rw [syncList_cons_eq]
  have hstep : syncStep st key s1 = activateFeature key s1 := by
    unfold syncStep
    rw [hen]
    simp
  have hact := activateFeature_inactive_throws key s1 m hm1 hth hna1
  refine ⟨?_, ?_, ?_⟩
  · rw [syncList_mem_not_mem st l2 key _ h2, hstep, hact]
    exact hna1
  · rw [countInit_append, countInit_append,
      syncList_countInit_not_mem st l1 key s h1, hstep, hact,
      syncList_countInit_not_mem st l2 key _ h2]
    simp [countInit, Event.isInit]
  · rw [hstep, hact]
    simp

theorem syncList_disabled_spec (st : VoyagerSettings) (keys : List String)
    (s : ContentState) (key : String)
    (hnd : keys.Nodup) (hk : key ∈ keys) (hen : enabledFlag st key = false)
    (hreg : key ∈ s.activeFeatures → ∃ m, lookupFeature s.features key = some m) :
    key ∉ (syncList st keys s).1.activeFeatures ∧
    countDestroy key (syncList st keys s).2 =
      (if key ∈ s.activeFeatures then 1 else 0) ∧
    countInit key (syncList st keys s).2 = 0 := by
  obtain ⟨l1, l2, rfl, h1, h2⟩ := nodup_split keys key hnd hk
  rw [syncList_append]
  set s1 := (syncList st l1 s).1 with hs1
  have hf1 : s1.features = s.features := syncList_features st l1 s
  have hmem1 : key ∈ s1.activeFeatures ↔ key ∈ s.activeFeatures :=
    syncList_mem_not_mem st l1 key s h1
  rw [syncList_cons_eq]
  have hstep : syncStep st key s1 = deactivateFeature key s1 := by
    unfold syncStep
    rw [hen]
    simp
  by_cases ha : key ∈ s.activeFeatures
  · obtain ⟨m, hm⟩ := hreg ha
    have hm1 : lookupFeature s1.features key = some m := by rw [hf1]; exact hm
    have hspec := deactivateFeature_active_spec key s1 m hm1 (hmem1.mpr ha)
    refine ⟨?_, ?_, ?_⟩
    · rw [syncList_mem_not_mem st l2 key _ h2, hstep, hspec.1]
      exact not_mem_filter_self key s1.activeFeatures
    · rw [countDestroy_append, countDestroy_append,
        syncList_countDestroy_not_mem st l1 key s h1,
        syncList_countDestroy_not_mem st l2 key _ h2, hstep, hspec.2.1]
      simp [ha]
    · rw [countInit_append, countInit_append,
        syncList_countInit_not_mem st l1 key s h1,
        syncList_countInit_not_mem st l2 key _ h2, hstep, hspec.2.2]
  · have hna1 : key ∉ s1.activeFeatures := fun hx => ha (hmem1.mp hx)
    have hde := deactivateFeature_inactive key s1 hna1
    refine ⟨?_, ?_, ?_⟩
    · rw [syncList_mem_not_mem st l2 key _ h2, hstep, hde]
      exact hna1
    · rw [countDestroy_append, countDestroy_append,
        syncList_countDestroy_not_mem st l1 key s h1,
        syncList_countDestroy_not_mem st l2 key _ h2, hstep, hde]
      simp [ha, countDestroy]
    · rw [countInit_append, countInit_append,
        syncList_countInit_not_mem st l1 key s h1,
        syncList_countInit_not_mem st l2 key _ h2, hstep, hde]
      simp [countInit]

theorem takeHexDash_all (l : List Char) (h : l.all hexDashChar = true) :
    takeHexDash l = l := by
  induction l with
  | nil => rfl
  | cons c rest ih =>
    simp only [List.all_cons, Bool.and_eq_true] at h
    simp only [takeHexDash, h.1, if_true]
    rw [ih h.2]

/-! Claim theorems. -/

/-- C1: during `syncFeatures`, a registered enabled feature `a` whose `init`
throws ends Inactive with the exception caught and logged, while another
registered enabled feature `b` with a working `init` still reaches Active and
its `init` is still called (exactly once, both features starting Inactive):
one feature's `init` failure never prevents activation of the others. -/
theorem init_failure_isolated (st : VoyagerSettings) (s : ContentState)
    (a b : String) (mA mB : FeatureModule)
    (hnd : (featureKeysOf st).Nodup)
    (hma : lookupFeature s.features a = some mA) (hAthrow : mA.initThrows = true)
    (hmb : lookupFeature s.features b = some mB) (hBthrow : mB.initThrows = false)
    (hae : enabledFlag st a = true) (hak : a ∈ featureKeysOf st)
    (hbe : enabledFlag st b = true) (hbk : b ∈ featureKeysOf st)
    (hana : a ∉ s.activeFeatures) (hbna : b ∉ s.activeFeatures) :
    a ∉ (syncFeatures st s).1.activeFeatures ∧
    Event.errorLogged a ∈ (syncFeatures st s).2 ∧
    countInit a (syncFeatures st s).2 = 1 ∧
    b ∈ (syncFeatures st s).1.activeFeatures ∧
    countInit b (syncFeatures st s).2 = 1 := by
  have hA := syncList_enabled_throws_spec st (featureKeysOf st) s a mA hnd hak
    hae hma hAthrow hana
  have hB := syncList_enabled_spec st (featureKeysOf st) s b mB hnd hbk hbe
    hmb hBthrow
  refine ⟨hA.1, hA.2.2, hA.2.1, hB.1, ?_⟩
  have := hB.2.1
  rwa [if_neg hbna] at this

/-- Witness for C1 at a concrete snapshot: features `a` (init throws) and `b`
(init succeeds), both enabled, both registered, both initially Inactive. -/
theorem init_failure_isolated_witness :
    "a" ∉ (syncFeatures ⟨[("a", true), ("b", true)]⟩
      ⟨[⟨"a", true, false, false, false, false, false⟩,
        ⟨"b", false, false, false, false, false, false⟩], [], []⟩).1.activeFeatures ∧
    Event.errorLogged "a" ∈ (syncFeatures ⟨[("a", true), ("b", true)]⟩
      ⟨[⟨"a", true, false, false, false, false, false⟩,
        ⟨"b", false, false, false, false, false, false⟩], [], []⟩).2 ∧
    countInit "a" (syncFeatures ⟨[("a", true), ("b", true)]⟩
      ⟨[⟨"a", true, false, false, false, false, false⟩,
        ⟨"b", false, false, false, false, false, false⟩], [], []⟩).2 = 1 ∧
    "b" ∈ (syncFeatures ⟨[("a", true), ("b", true)]⟩
      ⟨[⟨"a", true, false, false, false, false, false⟩,
        ⟨"b", false, false, false, false, false, false⟩], [], []⟩).1.activeFeatures ∧
    countInit "b" (syncFeatures ⟨[("a", true), ("b", true)]⟩
      ⟨[⟨"a", true, false, false, false, false, false⟩,
        ⟨"b", false, false, false, false, false, false⟩], [], []⟩).2 = 1 :=
  init_failure_isolated _ _ "a" "b"
    ⟨"a", true, false, false, false, false, false⟩
    ⟨"b", false, false, false, false, false, false⟩ (by decide) (by decide)
    (by decide) (by decide) (by decide) (by decide) (by decide) (by decide)
    (by decide) (by decide) (by decide)

/-- C2 counterexample: an enabled, registered feature whose `init` throws does
NOT end Active after `syncFeatures` (its `init` was called once and the
exception left it Inactive), refuting the unconditional "every enabled
registered key ends Active". -/
theorem reconcile_enabled_activates_cex :
    "a" ∉ (syncFeatures ⟨[("a", true)]⟩
      ⟨[⟨"a", true, false, false, false, false, false⟩], [], []⟩).1.activeFeatures ∧
    countInit "a" (syncFeatures ⟨[("a", true)]⟩
      ⟨[⟨"a", true, false, false, false, false, false⟩], [], []⟩).2 = 1 := by
  decide

/-- C2 (amended): after `syncFeatures`, every config key whose flag is true,
whose module is registered and whose `init` does not throw ends Active with
`init` called exactly once if it was Inactive before and zero times if it was
already Active; every config key whose flag is false ends Inactive with
`destroy` called exactly once if it was Active before (active keys being
registered) and zero times otherwise. -/
theorem reconcile_spec (st : VoyagerSettings) (s : ContentState) (key : String)
    (hnd : (featureKeysOf st).Nodup) (hk : key ∈ featureKeysOf st) :
    (∀ m, enabledFlag st key = true → lookupFeature s.features key = some m →
      m.initThrows = false →
      key ∈ (syncFeatures st s).1.activeFeatures ∧
      countInit key (syncFeatures st s).2 =
        (if key ∈ s.activeFeatures then 0 else 1) ∧
      countDestroy key (syncFeatures st s).2 = 0) ∧
    (enabledFlag st key = false →
      (key ∈ s.activeFeatures → ∃ m, lookupFeature s.features key = some m) →
      key ∉ (syncFeatures st s).1.activeFeatures ∧
      countDestroy key (syncFeatures st s).2 =
        (if key ∈ s.activeFeatures then 1 else 0) ∧
      countInit key (syncFeatures st s).2 = 0) := by
  constructor
  · intro m hen hm hth
    exact syncList_enabled_spec st _ s key m hnd hk hen hm hth
  · intro hen hreg
    exact syncList_disabled_spec st _ s key hnd hk hen hreg

/-- Witness for C2 (amended) at the claim's concrete scenario: ActiveSet
`{a: active, b: inactive}`, config `{a: false, b: true}` — after reconcile,
`a`'s destroy was called once and `a` is Inactive, `b`'s init was called once
and `b` is Active. -/
theorem reconcile_spec_witness :
    ("a" ∉ (syncFeatures ⟨[("a", false), ("b", true)]⟩
      ⟨[⟨"a", false, false, false, false, false, false⟩,
        ⟨"b", false, false, false, false, false, false⟩], ["a"], []⟩).1.activeFeatures ∧
     countDestroy "a" (syncFeatures ⟨[("a", false), ("b", true)]⟩
      ⟨[⟨"a", false, false, false, false, false, false⟩,
        ⟨"b", false, false, false, false, false, false⟩], ["a"], []⟩).2 = 1) ∧
    ("b" ∈ (syncFeatures ⟨[("a", false), ("b", true)]⟩
      ⟨[⟨"a", false, false, false, false, false, false⟩,
        ⟨"b", false, false, false, false, false, false⟩], ["a"], []⟩).1.activeFeatures ∧
     countInit "b" (syncFeatures ⟨[("a", false), ("b", true)]⟩
      ⟨[⟨"a", false, false, false, false, false, false⟩,
        ⟨"b", false, false, false, false, false, false⟩], ["a"], []⟩).2 = 1) := by
  constructor
  · have h := (reconcile_spec ⟨[("a", false), ("b", true)]⟩
      ⟨[⟨"a", false, false, false, false, false, false⟩,
        ⟨"b", false, false, false, false, false, false⟩], ["a"], []⟩ "a"
      (by decide) (by decide)).2 (by decide)
      (fun _ => ⟨⟨"a", false, false, false, false, false, false⟩, by decide⟩)
    refine ⟨h.1, ?_⟩
    rw [h.2.1, if_pos (by decide)]
  · have h := ((reconcile_spec ⟨[("a", false), ("b", true)]⟩
      ⟨[⟨"a", false, false, false, false, false, false⟩,
        ⟨"b", false, false, false, false, false, false⟩], ["a"], []⟩ "b"
      (by decide) (by decide)).1 ⟨"b", false, false, false, false, false, false⟩
      (by decide) (by decide) (by decide))
    refine ⟨h.1, ?_⟩
    rw [h.2.1, if_neg (by decide)]

/-- C4 counterexample: for a registered feature whose `init` throws, calling
`activateFeature` twice calls `init` twice (the throw leaves the key Inactive,
so the second call is not a no-op on the call count), refuting the
unconditional "activate twice results in exactly one init call". -/
theorem activate_twice_cex :
    countInit "a"
      ((activateFeature "a"
          ⟨[⟨"a", true, false, false, false, false, false⟩], [], []⟩).2 ++
        (activateFeature "a"
          (activateFeature "a"
            ⟨[⟨"a", true, false, false, false, false, false⟩], [], []⟩).1).2) = 2 ∧
    ¬(countInit "a"
      ((activateFeature "a"
          ⟨[⟨"a", true, false, false, false, false, false⟩], [], []⟩).2 ++
        (activateFeature "a"
          (activateFeature "a"
            ⟨[⟨"a", true, false, false, false, false, false⟩], [], []⟩).1).2) = 1) := by
  decide

/-- C4 (amended): for every registered, not-yet-active feature key whose
`init` does not throw, calling `activateFeature` twice without an intervening
deactivate results in exactly one `init` call, and the second call is a no-op
returning the state unchanged with no events. -/
theorem activate_idempotent (s : ContentState) (key : String) (m : FeatureModule)
    (hm : lookupFeature s.features key = some m) (hth : m.initThrows = false)
    (hna : key ∉ s.activeFeatures) :
    countInit key ((activateFeature key s).2 ++
      (activateFeature key (activateFeature key s).1).2) = 1 ∧
    activateFeature key (activateFeature key s).1 =
      ((activateFeature key s).1, []) := by
  have h1 := activateFeature_inactive_ok key s m hm hth hna
  rw [h1]
  have hmem : key ∈ ({ s with activeFeatures := s.activeFeatures ++ [key] } :
      ContentState).activeFeatures := by simp
  rw [activateFeature_active _ _ hmem]
  exact ⟨by simp [countInit, Event.isInit], rfl⟩

/-- Witness for C4 (amended) on a concrete registered feature with a working
`init`, starting Inactive. -/
theorem activate_idempotent_witness :
    countInit "a"
      ((activateFeature "a"
          ⟨[⟨"a", false, false, false, false, false, false⟩], [], []⟩).2 ++
        (activateFeature "a"
          (activateFeature "a"
            ⟨[⟨"a", false, false, false, false, false, false⟩], [], []⟩).1).2) = 1 ∧
    activateFeature "a"
      (activateFeature "a"
        ⟨[⟨"a", false, false, false, false, false, false⟩], [], []⟩).1 =
      ((activateFeature "a"
        ⟨[⟨"a", false, false, false, false, false, false⟩], [], []⟩).1, []) :=
  activate_idempotent _ "a" ⟨"a", false, false, false, false, false, false⟩
    (by decide) (by decide) (by decide)

/-- C5: deactivating an Active registered feature calls its `destroy` exactly
once and removes the key from the active set — for every module, so in
particular regardless of whether `destroy` throws — and a second deactivate in
a row is a no-op, leaving exactly one `destroy` call in total. -/
theorem deactivate_fail_forward (s : ContentState) (key : String)
    (m : FeatureModule) (hm : lookupFeature s.features key = some m)
    (ha : key ∈ s.activeFeatures) :
    countDestroy key (deactivateFeature key s).2 = 1 ∧
    key ∉ (deactivateFeature key s).1.activeFeatures ∧
    deactivateFeature key (deactivateFeature key s).1 =
      ((deactivateFeature key s).1, []) ∧
    countDestroy key ((deactivateFeature key s).2 ++
      (deactivateFeature key (deactivateFeature key s).1).2) = 1 := by
  have hspec := deactivateFeature_active_spec key s m hm ha
  have hnot : key ∉ (deactivateFeature key s).1.activeFeatures := by
    rw [hspec.1]
    exact not_mem_filter_self key s.activeFeatures
  have hsecond := deactivateFeature_inactive key _ hnot
  refine ⟨hspec.2.1, hnot, hsecond, ?_⟩
  rw [countDestroy_append, hspec.2.1, hsecond]
  simp [countDestroy]

/-- Witness for C5 on a concrete Active feature whose `destroy` throws: the
state update happens anyway and the second deactivate is a no-op. -/
theorem deactivate_fail_forward_witness :
    countDestroy "a" (deactivateFeature "a"
      ⟨[⟨"a", false, true, false, false, false, false⟩], ["a"], []⟩).2 = 1 ∧
    "a" ∉ (deactivateFeature "a"
      ⟨[⟨"a", false, true, false, false, false, false⟩], ["a"], []⟩).1.activeFeatures ∧
    deactivateFeature "a" (deactivateFeature "a"
      ⟨[⟨"a", false, true, false, false, false, false⟩], ["a"], []⟩).1 =
      ((deactivateFeature "a"
        ⟨[⟨"a", false, true, false, false, false, false⟩], ["a"], []⟩).1, []) ∧
    countDestroy "a" ((deactivateFeature "a"
      ⟨[⟨"a", false, true, false, false, false, false⟩], ["a"], []⟩).2 ++
      (deactivateFeature "a" (deactivateFeature "a"
        ⟨[⟨"a", false, true, false, false, false, false⟩], ["a"], []⟩).1).2) = 1 :=
  deactivate_fail_forward _ "a" ⟨"a", false, true, false, false, false, false⟩
    (by decide) (by decide)

/-- C9: deactivating an Active registered feature calls its `destroy` exactly
once and removes it from the active set, and from any state in which the key
is inactive: a messages-mutation notification delivers zero `onMessagesChanged`
calls to it, and every core operation other than an activate of that very key
(deactivates of any key, activates of other keys, navigation checks) keeps it
out of the active set — so it never receives `onMessagesChanged` again until
re-activated. -/
theorem deactivated_receives_no_messages (s : ContentState) (key : String)
    (m : FeatureModule) (hm : lookupFeature s.features key = some m)
    (ha : key ∈ s.activeFeatures) :
    countDestroy key (deactivateFeature key s).2 = 1 ∧
    key ∉ (deactivateFeature key s).1.activeFeatures ∧
    (∀ s2 : ContentState, key ∉ s2.activeFeatures →
      countMessages key (notifyMessagesChanged s2.features s2.activeFeatures).1 = 0 ∧
      (∀ k2, key ∉ (deactivateFeature k2 s2).1.activeFeatures) ∧
      (∀ k2, k2 ≠ key → key ∉ (activateFeature k2 s2).1.activeFeatures) ∧
      (∀ p, key ∉ (checkNavigation p s2).1.activeFeatures)) := by
  have hspec := deactivateFeature_active_spec key s m hm ha
  have hnot : key ∉ (deactivateFeature key s).1.activeFeatures := by
    rw [hspec.1]
    exact not_mem_filter_self key s.activeFeatures
  refine ⟨hspec.2.1, hnot, ?_⟩
  intro s2 h2
  refine ⟨notifyMessagesChanged_count_not_mem _ _ _ h2, ?_, ?_, ?_⟩
  · intro k2
    by_cases he : k2 = key
    · subst he
      rw [deactivateFeature_inactive _ _ h2]
      exact h2
    · intro hx
      exact h2 ((deactivateFeature_mem_other key k2 s2 he).mp hx)
  · intro k2 hne hx
    exact h2 ((activateFeature_mem_other key k2 s2 hne).mp hx)
  · intro p
    rw [checkNavigation_activeFeatures]
    exact h2

/-- Witness for C9 on a concrete Active feature implementing
`onMessagesChanged`: after deactivation its destroy count is one and the next
messages notification delivers nothing to it. -/
theorem deactivated_receives_no_messages_witness :
    countDestroy "a" (deactivateFeature "a"
      ⟨[⟨"a", false, false, false, false, true, false⟩], ["a"], []⟩).2 = 1 ∧
    countMessages "a"
      (notifyMessagesChanged
        (deactivateFeature "a"
          ⟨[⟨"a", false, false, false, false, true, false⟩], ["a"], []⟩).1.features
        (deactivateFeature "a"
          ⟨[⟨"a", false, false, false, false, true, false⟩], ["a"], []⟩).1.activeFeatures).1 = 0 := by
  have h := deactivated_receives_no_messages
    ⟨[⟨"a", false, false, false, false, true, false⟩], ["a"], []⟩ "a"
    ⟨"a", false, false, false, false, true, false⟩ (by decide) (by decide)
  exact ⟨h.1, (h.2.2 _ h.2.1).1⟩

/-- C3 (divergence from the spec): the `checkNavigation` notification loop
does NOT wrap the individual `onNavigate` calls.  With two active features in
iteration order `a`, `b`, both implementing `onNavigate` and `a`'s throwing,
a path change calls `a`'s hook once, lets the exception escape, and never
notifies `b` — contradicting "every active feature is invoked even when an
earlier feature's `onNavigate` throws". -/
theorem navigate_throw_not_isolated :
    (checkNavigation ("/chat/abc".toList)
      ⟨[⟨"a", false, false, true, true, false, false⟩,
        ⟨"b", false, false, true, false, false, false⟩],
        ["a", "b"], ['/']⟩).2.2 = true ∧
    countNavigate "a" (checkNavigation ("/chat/abc".toList)
      ⟨[⟨"a", false, false, true, true, false, false⟩,
        ⟨"b", false, false, true, false, false, false⟩],
        ["a", "b"], ['/']⟩).2.1 = 1 ∧
    countNavigate "b" (checkNavigation ("/chat/abc".toList)
      ⟨[⟨"a", false, false, true, true, false, false⟩,
        ⟨"b", false, false, true, false, false, false⟩],
        ["a", "b"], ['/']⟩).2.1 = 0 := by
  decide

/-- C6: `checkNavigation` on an unchanged path is a no-op with zero
`onNavigate` calls and an unchanged cursor; on a changed path it updates the
cursor to the new path and (when no active feature's hook throws, the active
set being duplicate-free) calls `onNavigate` exactly once on every active
feature that implements it — with the conversation id freshly computed from
the new path — and zero times on active features without the hook. -/
theorem checkNavigation_spec (p : List Char) (s : ContentState) :
    (p = s.lastPath → checkNavigation p s = (s, [], false)) ∧
    (p ≠ s.lastPath →
      (checkNavigation p s).1.lastPath = p ∧
      (checkNavigation p s).1.activeFeatures = s.activeFeatures ∧
      (checkNavigation p s).1.features = s.features ∧
      (s.activeFeatures.Nodup →
        (∀ k ∈ s.activeFeatures, ∀ m, lookupFeature s.features k = some m →
          m.navigateThrows = false) →
        (checkNavigation p s).2.2 = false ∧
        ∀ k ∈ s.activeFeatures, ∀ m, lookupFeature s.features k = some m →
          countNavigate k (checkNavigation p s).2.1 =
            (if m.hasOnNavigate then 1 else 0) ∧
          countNavigateWith k (execChatId p) (checkNavigation p s).2.1 =
            (if m.hasOnNavigate then 1 else 0))) := by
  constructor
  · intro h
    simp [checkNavigation, h]
  · intro hne
    have hif : (p == s.lastPath) = false := by
      rw [beq_eq_false_iff_ne]
      exact hne
    have heq : checkNavigation p s =
        ({ s with lastPath := p },
          (notifyNavigate s.features (execChatId p) s.activeFeatures).1,
          (notifyNavigate s.features (execChatId p) s.activeFeatures).2) := by
      simp [checkNavigation, hif]
    rw [heq]
    refine ⟨rfl, rfl, rfl, ?_⟩
    intro hnd hnt
    refine ⟨notifyNavigate_noThrow _ _ _ hnt, ?_⟩
    intro k hk m hm
    exact notifyNavigate_count_mem s.features (execChatId p) s.activeFeatures
      k m hnd hk hm hnt

/-- Witness for C6: a no-op on the unchanged path `/`, and on a change to
`/chat/ab` exactly one `onNavigate` call with the fresh conversation id for
the single active feature implementing the hook. -/
theorem checkNavigation_spec_witness :
    checkNavigation ['/']
      ⟨[⟨"n", false, false, true, false, false, false⟩], ["n"], ['/']⟩ =
      (⟨[⟨"n", false, false, true, false, false, false⟩], ["n"], ['/']⟩, [], false) ∧
    (checkNavigation ("/chat/ab".toList)
      ⟨[⟨"n", false, false, true, false, false, false⟩], ["n"], ['/']⟩).1.lastPath =
      "/chat/ab".toList ∧
    (checkNavigation ("/chat/ab".toList)
      ⟨[⟨"n", false, false, true, false, false, false⟩], ["n"], ['/']⟩).2.2 = false ∧
    countNavigate "n" (checkNavigation ("/chat/ab".toList)
      ⟨[⟨"n", false, false, true, false, false, false⟩], ["n"], ['/']⟩).2.1 = 1 ∧
    countNavigateWith "n" (execChatId ("/chat/ab".toList))
      (checkNavigation ("/chat/ab".toList)
        ⟨[⟨"n", false, false, true, false, false, false⟩], ["n"], ['/']⟩).2.1 = 1 := by
  have hA := (checkNavigation_spec ['/']
    ⟨[⟨"n", false, false, true, false, false, false⟩], ["n"], ['/']⟩).1 rfl
  have hB := (checkNavigation_spec ("/chat/ab".toList)
    ⟨[⟨"n", false, false, true, false, false, false⟩], ["n"], ['/']⟩).2 (by decide)
  have hnt : ∀ k ∈ (⟨[⟨"n", false, false, true, false, false, false⟩], ["n"], ['/']⟩ :
      ContentState).activeFeatures, ∀ m,
      lookupFeature (⟨[⟨"n", false, false, true, false, false, false⟩], ["n"], ['/']⟩ :
        ContentState).features k = some m → m.navigateThrows = false := by
    intro k hk m hm
    have hk2 : k = "n" := by simpa using hk
    subst hk2
    have hval : lookupFeature
        [(⟨"n", false, false, true, false, false, false⟩ : FeatureModule)] "n" =
        some ⟨"n", false, false, true, false, false, false⟩ := by decide
    rw [hval] at hm
    cases hm
    rfl
  have hC := hB.2.2.2 (by decide) hnt
  have hD := hC.2 "n" (by decide) ⟨"n", false, false, true, false, false, false⟩
    (by decide)
  exact ⟨hA, hB.1, hC.1, by simpa using hD.1, by simpa using hD.2⟩

/-- Unfolding equation for `observerRun` (well-founded recursion). -/
theorem observerRun_eq (r : Nat) :
    observerRun r = if MESSAGE_OBSERVER_MAX_RETRIES ≤ r then []
      else backoffDelay r :: observerRun (r + 1) := by
  conv_lhs => unfold observerRun

/-- C7: when the container is never found, the retry chain started at retry
count 0 schedules exactly `MESSAGE_OBSERVER_MAX_RETRIES = 6` retries with
delays 1000, 2000, 4000, 8000, 10000, 10000 ms (the k-th retry delay is
`min (1000 * 2 ^ k) 10000`: doubling, capped at 10 s), and the invocation at
retry count 6 gives up permanently, scheduling nothing further. -/
theorem backoff_termination :
    observerRun 0 = [1000, 2000, 4000, 8000, 10000, 10000] ∧
    (observerRun 0).length = MESSAGE_OBSERVER_MAX_RETRIES ∧
    setupMessageObserverStep false MESSAGE_OBSERVER_MAX_RETRIES =
      ObserverOutcome.gaveUp ∧
    observerRun MESSAGE_OBSERVER_MAX_RETRIES = [] := by
  have h6 : observerRun 6 = [] := by
    rw [observerRun_eq]
    norm_num [MESSAGE_OBSERVER_MAX_RETRIES]
  have h0 : observerRun 0 = [1000, 2000, 4000, 8000, 10000, 10000] := by
    rw [observerRun_eq, observerRun_eq, observerRun_eq, observerRun_eq,
      observerRun_eq, observerRun_eq, h6]
    norm_num [MESSAGE_OBSERVER_MAX_RETRIES, backoffDelay]
  exact ⟨h0, by rw [h0]; rfl, by decide, h6⟩

/-- C8: `DOM.observe` first tears down any watch registered under the same
name: the old observer's `disconnect` is called before the new observer is
started, the old entry leaves the registry, the registry keeps at most one
entry per name (key uniqueness is preserved), and every surviving entry under
the name is the new one. -/
theorem observe_replaces (observers : List (String × ObserverEntry))
    (name : String) (target newObserver : Nat)
    (hnd : (observers.map Prod.fst).Nodup) :
    ((observe name target newObserver observers).1.map Prod.fst).Nodup ∧
    (∀ q ∈ (observe name target newObserver observers).1, q.1 = name →
      q.2 = ⟨newObserver, target⟩) ∧
    (∀ pr, observers.find? (fun p => p.1 == name) = some pr →
      (observe name target newObserver observers).2 =
        [ObsEvent.disconnected pr.2.observer,
          ObsEvent.observeStarted newObserver target] ∧
      (pr.2.observer ≠ newObserver →
        pr ∉ (observe name target newObserver observers).1)) := by
  have hobs1 : (observe name target newObserver observers).1 =
      (unobserve name observers).1 ++ [(name, ⟨newObserver, target⟩)] := rfl
  have hkey : ∀ q ∈ (unobserve name observers).1, q.1 ≠ name := by
    intro q hq
    unfold unobserve at hq
    cases hf : observers.find? (fun p => p.1 == name) with
    | none =>
      simp only [hf] at hq
      simpa using List.find?_eq_none.mp hf q hq
    | some pr =>
      simp only [hf] at hq
      rw [List.mem_filter] at hq
      simpa using hq.2
  have hnodup2 : ((unobserve name observers).1.map Prod.fst).Nodup := by
    unfold unobserve
    cases hf : observers.find? (fun p => p.1 == name) with
    | none =>
      simp only [hf]
      exact hnd
    | some pr =>
      simp only [hf]
      exact List.Nodup.sublist ((List.filter_sublist _).map Prod.fst) hnd
  refine ⟨?_, ?_, ?_⟩
  · rw [hobs1, List.map_append]
    refine List.Nodup.append hnodup2 (by simp) ?_
    intro a ha hb
    obtain ⟨q, hq, rfl⟩ := List.mem_map.mp ha
    simp only [List.map_cons, List.map_nil, List.mem_singleton] at hb
    exact hkey q hq hb
  · intro q hq hqname
    rw [hobs1] at hq
    rcases List.mem_append.mp hq with hq | hq
    · exact absurd hqname (hkey q hq)
    · simp only [List.mem_singleton] at hq
      rw [hq]
  · intro pr hf
    have hpr1 : pr.1 = name := by simpa using List.find?_some hf
    have hev : (observe name target newObserver observers).2 =
        [ObsEvent.disconnected pr.2.observer,
          ObsEvent.observeStarted newObserver target] := by
      show (unobserve name observers).2 ++ _ = _
      simp [unobserve, hf]
    refine ⟨hev, ?_⟩
    intro hne hmem
    rw [hobs1] at hmem
    rcases List.mem_append.mp hmem with hmem | hmem
    · exact hkey pr hmem hpr1
    · simp only [List.mem_singleton] at hmem
      exact hne (by rw [hmem])

/-- Witness for C8 at a concrete registry holding `messages ↦ observer 1 on
target 10`, replaced by observer 2 on target 20: the old observer is
disconnected before the new one starts, the old entry is gone, and the
registry keys stay duplicate-free. -/
theorem observe_replaces_witness :
    (observe "messages" 20 2 [("messages", ⟨1, 10⟩)]).2 =
      [ObsEvent.disconnected 1, ObsEvent.observeStarted 2 20] ∧
    ("messages", (⟨1, 10⟩ : ObserverEntry)) ∉
      (observe "messages" 20 2 [("messages", ⟨1, 10⟩)]).1 ∧
    ((observe "messages" 20 2 [("messages", ⟨1, 10⟩)]).1.map Prod.fst).Nodup := by
  have h := observe_replaces [("messages", ⟨1, 10⟩)] "messages" 20 2 (by decide)
  have h3 := h.2.2 ("messages", ⟨1, 10⟩) (by decide)
  exact ⟨h3.1, h3.2 (by decide), h.1⟩

/-- C10: whenever `isChatPage` accepts a pathname, `getConversationId`
(`execChatId`) on that pathname returns exactly the nonempty hex-and-dash
segment after `/chat/`; the converse fails — the pathname `/chat/abc/0` has a
conversation id (`abc`) but is not a chat page. -/
theorem chat_page_has_conversation_id :
    (∀ cs : List Char, isChatPage cs = true →
      execChatId cs = some (cs.drop 6) ∧ cs.drop 6 ≠ []) ∧
    isChatPage ("/chat/abc/0".toList) = false ∧
    (execChatId ("/chat/abc/0".toList)).isSome = true := by
  refine ⟨?_, by decide, by decide⟩
  intro cs h
  unfold isChatPage at h
  simp only [Bool.and_eq_true] at h
  obtain ⟨⟨hsw, hne⟩, hall⟩ := h
  have hne2 : (cs.drop 6).isEmpty = false := by simpa using hne
  cases cs with
  | nil => simp [startsWithChat] at hsw
  | cons c rest =>
    simp only [execChatId, hsw, if_true]
    rw [takeHexDash_all _ hall, hne2]
    constructor
    · simp
    · intro hnil
      rw [hnil] at hne2
      simp at hne2

/-- Witness for C10 at the concrete chat pathname `/chat/ab-1`. -/
theorem chat_page_has_conversation_id_witness :
    isChatPage ("/chat/ab-1".toList) = true ∧
    execChatId ("/chat/ab-1".toList) = some (("/chat/ab-1".toList).drop 6) :=
  ⟨by decide, (chat_page_has_conversation_id.1 _ (by decide)).1⟩

end Voyager
